import Mathlib

/-!
Verification of the yomo Zipper core: frame parsing (`stream_parser.go`),
and the server's handshake, routing, workflow and session logic
(`server.go`, given as `src/unnamed/part_000`).

Byte strings (Go `string` / `[]byte`) are modelled as `List Nat`.
-/

namespace Yomo

/-- A byte string: Go strings and byte slices are plain byte sequences. -/
abbrev Bytes := List Nat

/-- Modelled from the spec: the frame-kind tag constants of the external
`internal/frame` package (only their distinctness and being low-7-bit
selectors matter; the package itself is not under `src/`). -/
def TagOfHandshakeFrame : Nat := 0x3D

/-- Modelled from the spec: kind tag of Ping frames. -/
def TagOfPingFrame : Nat := 0x3C

/-- Modelled from the spec: kind tag of Pong frames. -/
def TagOfPongFrame : Nat := 0x3B

/-- Modelled from the spec: kind tag of Accepted frames. -/
def TagOfAcceptedFrame : Nat := 0x3A

/-- Modelled from the spec: kind tag of Rejected frames. -/
def TagOfRejectedFrame : Nat := 0x39

/-- Modelled from the spec: kind tag of Data frames. -/
def TagOfDataFrame : Nat := 0x3F

/-- Modelled from the spec: client-type byte constants (`ConnTypeSource`,
`ConnTypeStreamFunction`, `ConnTypeUpstreamZipper`); only distinctness
matters, the defining file is not under `src/`. -/
def ConnTypeSource : Nat := 0x5F

/-- Modelled from the spec: byte constant of the StreamFunction client type. -/
def ConnTypeStreamFunction : Nat := 0x5D

/-- Modelled from the spec: byte constant of the UpstreamZipper client type. -/
def ConnTypeUpstreamZipper : Nat := 0x5E

/-- HandshakeFrame (spec §3): peer name and client type byte. -/
structure HandshakeFrame where
  Name : Bytes
  ClientType : Nat
  deriving DecidableEq, Repr

/-- DataFrame (spec §3): transaction id, issuer, payload-schema tag and
opaque carriage body. -/
structure DataFrame where
  transactionID : Bytes
  issuer : Bytes
  dataTag : Nat
  carriage : Bytes
  deriving DecidableEq, Repr

/-- The typed frames produced by the codec (spec §3). -/
inductive Frame
  | handshake (f : HandshakeFrame)
  | ping
  | pong
  | accepted
  | rejected
  | data (f : DataFrame)
  deriving DecidableEq, Repr

/-- Modelled from the spec: the self-describing body encoding of the external
y3 codec, as length-prefixed fields: a Handshake frame is its tag byte (high
bit set), then the length-prefixed name, then the client-type byte. -/
def encodeHandshakeFrame (f : HandshakeFrame) : Bytes :=
  (0x80 ||| TagOfHandshakeFrame) :: f.Name.length :: (f.Name ++ [f.ClientType])

/-- Modelled from the spec: a Data frame is its tag byte (high bit set), then
length-prefixed transaction id, length-prefixed issuer, the data tag byte,
and the length-prefixed carriage. -/
def encodeDataFrame (f : DataFrame) : Bytes :=
  (0x80 ||| TagOfDataFrame) :: f.transactionID.length ::
    (f.transactionID ++ f.issuer.length ::
      (f.issuer ++ f.dataTag :: f.carriage.length :: f.carriage))

/-- Read one length-prefixed field from a byte string: the first byte is the
length, followed by that many content bytes; fails on truncation. -/
def readChunk : Bytes → Option (Bytes × Bytes)
  | [] => none
  | n :: rest => if n ≤ rest.length then some (rest.take n, rest.drop n) else none

/-- Modelled from the spec: `frame.DecodeToHandshakeFrame` — fallible schema
decoding of a Handshake body, validating field presence and full consumption. -/
def DecodeToHandshakeFrame (buf : Bytes) : Option HandshakeFrame :=
  match buf with
  | [] => none
  | b :: body =>
    if b = 0x80 ||| TagOfHandshakeFrame then
      match readChunk body with
      | some (name, rest) =>
        match rest with
        | [ct] => some ⟨name, ct⟩
        | _ => none
      | none => none
    else none

/-- Modelled from the spec: `frame.DecodeToDataFrame` — fallible schema
decoding of a Data body, validating field presence and full consumption. -/
def DecodeToDataFrame (buf : Bytes) : Option DataFrame :=
  match buf with
  | [] => none
  | b :: body =>
    if b = 0x80 ||| TagOfDataFrame then
      match readChunk body with
      | some (tid, r1) =>
        match readChunk r1 with
        | some (iss, r2) =>
          match r2 with
          | tag :: r3 =>
            match readChunk r3 with
            | some (car, r4) =>
              match r4 with
              | [] => some ⟨tid, iss, tag, car⟩
              | _ => none
            | none => none
          | [] => none
        | none => none
      | none => none
    else none

/-- Modelled from the spec: `frame.DecodeToPingFrame` — a Ping frame is just
its tag byte. -/
def DecodeToPingFrame (buf : Bytes) : Option Frame :=
  if buf = [0x80 ||| TagOfPingFrame] then some .ping else none

/-- Modelled from the spec: `frame.DecodeToPongFrame`. -/
def DecodeToPongFrame (buf : Bytes) : Option Frame :=
  if buf = [0x80 ||| TagOfPongFrame] then some .pong else none

/-- Modelled from the spec: `frame.DecodeToAcceptedFrame`. -/
def DecodeToAcceptedFrame (buf : Bytes) : Option Frame :=
  if buf = [0x80 ||| TagOfAcceptedFrame] then some .accepted else none

/-- Modelled from the spec: `frame.DecodeToRejectedFrame`. -/
def DecodeToRejectedFrame (buf : Bytes) : Option Frame :=
  if buf = [0x80 ||| TagOfRejectedFrame] then some .rejected else none

/-- Outcome of `ParseFrame`: a decoded frame, an error returned to the caller,
or a crash of the calling task (the Go code calls `panic`). -/
inductive ParseResult
  | ok (f : Frame)
  | err (msg : String)
  | crash
  deriving DecidableEq, Repr

/-- `ParseFrame` (stream_parser.go:13-48): dispatch on the first byte of the
packet; Handshake and Data bodies are sub-decoded by `readHandshakeFrame` /
`readDataFrame` (stream_parser.go:50-66), which crash (`panic`) when the
sub-decoder fails; unknown first bytes return an error. An empty read is a
read error returned to the caller. -/
def ParseFrame (buf : Bytes) : ParseResult :=
  match buf with
  | [] => .err "read error"
  | b :: _ =>
    if b = 0x80 ||| TagOfHandshakeFrame then
      match DecodeToHandshakeFrame buf with
      | some h => .ok (.handshake h)
      | none => .crash
    else if b = 0x80 ||| TagOfDataFrame then
      match DecodeToDataFrame buf with
      | some d => .ok (.data d)
      | none => .crash
    else if b = 0x80 ||| TagOfPingFrame then
      match DecodeToPingFrame buf with
      | some f => .ok f
      | none => .err "malformed ping"
    else if b = 0x80 ||| TagOfPongFrame then
      match DecodeToPongFrame buf with
      | some f => .ok f
      | none => .err "malformed pong"
    else if b = 0x80 ||| TagOfAcceptedFrame then
      match DecodeToAcceptedFrame buf with
      | some f => .ok f
      | none => .err "malformed accepted"
    else if b = 0x80 ||| TagOfRejectedFrame then
      match DecodeToRejectedFrame buf with
      | some f => .ok f
      | none => .err "malformed rejected"
    else .err "unknown frame type"

example : ParseFrame [0x80 ||| TagOfHandshakeFrame] = .crash := by decide

example : ParseFrame [0x99] = .err "unknown frame type" := by decide

/-- A workflow stage (spec §3): 0-based sequence position and the token
(function name) expected there. -/
structure Workflow where
  Seq : Int
  Token : Bytes
  deriving DecidableEq, Repr

/-- Lookup in the Go map `funcBuckets : map[int]string`, modelled as an entry
list; a missing key yields the zero value, the empty string. -/
def bucketGet : List (Int × Bytes) → Int → Bytes
  | [], _ => []
  | e :: rest, i => if e.1 = i then e.2 else bucketGet rest i

/-- Assignment `funcBuckets[i] = t` on the entry-list model of the Go map. -/
def setBucket : List (Int × Bytes) → Int → Bytes → List (Int × Bytes)
  | [], i, t => [(i, t)]
  | e :: rest, i, t =>
    if e.1 = i then (i, t) :: setBucket rest i t else e :: setBucket rest i t

/-- The `Server` state (server.go): the Function Registry `funcs` (modelled
from the spec as a name-to-stream-handle map, `ConcurrentMap` itself being
outside `src/`; `Set` replaces any existing entry, `Get` returns the handle
or absence), the Data-frame counter, and the workflow buckets. The Go map
`funcBuckets` is modelled as its entry list in iteration order. Stream
handles are numeric identifiers. -/
structure Server where
  funcs : Bytes → Option Nat
  counterOfDataFrame : Int
  funcBuckets : List (Int × Bytes)

/-- `NewServer` (server.go:37-42): empty registry, zero counter, no buckets. -/
def NewServer : Server :=
  { funcs := fun _ => none, counterOfDataFrame := 0, funcBuckets := [] }

/-- `handleHandShakeFrame` (server.go:169-184): StreamFunction client type
registers `(name, stream)` in the registry; Source, UpstreamZipper and
unknown client types only log. -/
def handleHandShakeFrame (s : Server) (streamId : Nat) (f : HandshakeFrame) :
    Server :=
  if f.ClientType = ConnTypeSource then s
  else if f.ClientType = ConnTypeStreamFunction then
    { s with funcs := fun n => if n = f.Name then some streamId else s.funcs n }
  else if f.ClientType = ConnTypeUpstreamZipper then s
  else s

/-- The loop of `handleDataFrame` (server.go:197-203): `var j int` starts at
0; every bucket entry whose token equals the issuer sets `j` to its key plus
one (the last match in iteration order wins). -/
def nextBucketIndex (entries : List (Int × Bytes)) (issuer : Bytes) : Int :=
  entries.foldl (fun j e => if e.2 = issuer then e.1 + 1 else j) 0

/-- `handleDataFrame` (server.go:190-227): increment the counter, compute the
target bucket index from the issuer, and either write the re-encoded frame
to the target's registered stream or drop the frame. The second component is
the performed write `(stream handle, bytes)`, `none` when dropped. -/
def handleDataFrame (s : Server) (f : DataFrame) :
    Server × Option (Nat × Bytes) :=
  let s1 : Server := { s with counterOfDataFrame := s.counterOfDataFrame + 1 }
  let j := nextBucketIndex s1.funcBuckets f.issuer
  if j = 0 then
    match s1.funcs (bucketGet s1.funcBuckets 0) with
    | none => (s1, none)
    | some t => (s1, some (t, encodeDataFrame f))
  else
    if (bucketGet s1.funcBuckets j).length = 0 then (s1, none)
    else
      match s1.funcs (bucketGet s1.funcBuckets j) with
      | none => (s1, none)
      | some t => (s1, some (t, encodeDataFrame f))

/-- `AddWorkflow` (server.go:229-234): store each `(Seq, Token)` pair into
the buckets map in order; always returns `nil` (modelled as the `Option
String` error being `none`). -/
def AddWorkflow (s : Server) (wfs : List Workflow) : Server × Option String :=
  (⟨s.funcs,
    s.counterOfDataFrame,
    wfs.foldl (fun bs wf => setBucket bs wf.Seq wf.Token) s.funcBuckets⟩,
   none)

/-- `StatsCounter` (server.go:165-167): read accessor of the Data counter. -/
def StatsCounter (s : Server) : Int := s.counterOfDataFrame

/-- The token that a list of workflow pairs assigns to sequence `q`: the last
pair in the list with that sequence wins, mirroring repeated Go-map
assignment. -/
def lastTokenOf (l : List Workflow) (q : Int) : Option Bytes :=
  l.foldl (fun acc w => if w.Seq = q then some w.Token else acc) none

/-- One read from a stream, as seen by `handleSession`: a decoded frame, the
benign connection-closed-by-peer error (`net.ErrClosed`), or any other read
error. -/
inductive ReadResult
  | ok (f : Frame)
  | errClosed
  | errOther (msg : String)
  deriving DecidableEq, Repr

/-- The frame dispatch of `handleSession` (server.go:146-157): Handshake
frames mutate the registry, Ping frames only log, Data frames are routed;
other frame types hit the default (log-only) branch. The second component
lists the stream writes performed. -/
def handleFrame (s : Server) (streamId : Nat) (f : Frame) :
    Server × List (Nat × Bytes) :=
  match f with
  | .handshake h => (handleHandShakeFrame s streamId h, [])
  | .ping => (s, [])
  | .pong => (s, [])
  | .accepted => (s, [])
  | .rejected => (s, [])
  | .data d =>
    match handleDataFrame s d with
    | (s2, none) => (s2, [])
    | (s2, some w) => (s2, [w])

/-- `handleSession` (server.go:124-159) over a list of read results: process
frames until a read error. On `net.ErrClosed` break with no close calls; on
any other error call `stream.Close()` and `session.CloseWithError(0xCC, ...)`
then break. Result: final server state, whether the stream was explicitly
closed, and the session close code if the session was closed. -/
def handleSession (s : Server) (streamId : Nat) :
    List ReadResult → Server × Bool × Option Nat
  | [] => (s, false, none)
  | r :: rest =>
    match r with
    | .errClosed => (s, false, none)
    | .errOther _ => (s, true, some 0xCC)
    | .ok f => handleSession (handleFrame s streamId f).1 streamId rest

/-- The per-connection stream-accept loop (server.go:89-107), with the
transport assumption, modelled from the spec, that `AcceptStream` fails once
the session has been closed with an error code: streams are handled strictly
serially; an accept failure breaks the loop. Input: for each would-be stream,
its id and read results. Result: final server state, final session close
code, and how many streams were accepted and handled. -/
def acceptStreamLoop (s : Server) (code : Option Nat) :
    List (Nat × List ReadResult) → Server × Option Nat × Nat
  | [] => (s, code, 0)
  | (sid, reads) :: rest =>
    match code with
    | some c => (s, some c, 0)
    | none =>
      match handleSession s sid reads with
      | (s2, _, c2) =>
        match acceptStreamLoop s2 c2 rest with
        | (s3, c3, n) => (s3, c3, n + 1)

/-- Modelled from the source line `s.counterOfDataFrame++` (server.go:192):
a non-atomic read-modify-write. Each connection task is either not started,
holding a loaded counter value, or done. -/
inductive IncTask
  | start
  | loaded (v : Int)
  | done
  deriving DecidableEq, Repr

/-- One step of a task incrementing the shared counter non-atomically:
from `start` it loads the current counter; from `loaded v` it stores
`v + 1`; `done` leaves the counter alone. -/
def incStep (c : Int) : IncTask → IncTask × Int
  | .start => (.loaded c, c)
  | .loaded v => (.done, v + 1)
  | .done => (.done, c)

/-- Run a schedule (a list of task indices) of interleaved non-atomic
increments of the shared counter, starting from task states `ts` and
counter `c`. -/
def runSched : List IncTask → Int → List Nat → List IncTask × Int
  | ts, c, [] => (ts, c)
  | ts, c, i :: rest =>
    match ts.get? i with
    | none => runSched ts c rest
    | some t => runSched (ts.set i (incStep c t).1) (incStep c t).2 rest

example : runSched [.start, .start] 0 [0, 1, 0, 1] = ([.done, .done], 1) := by
  decide

example : runSched [.start, .start] 0 [0, 0, 1, 1] = ([.done, .done], 2) := by
  decide

/-- `handleSession` first drains a prefix of well-decoded frames, folding the
frame dispatch over the server state. -/
theorem handleSession_ok_prefix (sid : Nat) (frames : List Frame)
    (rest : List ReadResult) :
    ∀ s, handleSession s sid (frames.map ReadResult.ok ++ rest)
      = handleSession (frames.foldl (fun s f => (handleFrame s sid f).1) s)
          sid rest := by
  induction frames with
  | nil => intro s; rfl
  | cons f fs ih =>
    intro s
    simp only [List.map_cons, List.cons_append, List.foldl_cons,
      handleSession]
    exact ih ((handleFrame s sid f).1)

/-- Once the session has been closed with an error code, the stream-accept
loop accepts no further stream. -/
theorem acceptLoop_closed (s : Server) (c : Nat)
    (l : List (Nat × List ReadResult)) :
    acceptStreamLoop s (some c) l = (s, some c, 0) := by
  cases l with
  | nil => rfl
  | cons p rest =>
    obtain ⟨sid, reads⟩ := p
    rfl

/-- Claim C8: in the frame-reading loop, the benign connection-closed-by-peer
read error stops reading the stream with no close calls, and the accept loop
goes on to the next stream; any other read error closes the stream and
terminates the session with error code `0xCC`, after which no further stream
is accepted on that connection. -/
theorem session_read_error_handling (s : Server) (sid : Nat)
    (frames : List Frame) (msg : String) :
    (handleSession s sid (frames.map ReadResult.ok
        ++ [ReadResult.errClosed])).2 = (false, none)
    ∧ (handleSession s sid (frames.map ReadResult.ok
        ++ [ReadResult.errOther msg])).2 = (true, some 0xCC)
    ∧ (∀ rest, (acceptStreamLoop s none
        ((sid, frames.map ReadResult.ok ++ [ReadResult.errOther msg])
          :: rest)).2.2 = 1)
    ∧ (∀ rest, (acceptStreamLoop s none
        ((sid, frames.map ReadResult.ok ++ [ReadResult.errClosed])
          :: rest)).2.2
      = (acceptStreamLoop
          (handleSession s sid (frames.map ReadResult.ok
            ++ [ReadResult.errClosed])).1 none rest).2.2 + 1) := by
  have h1 := handleSession_ok_prefix sid frames [ReadResult.errClosed] s
  have h2 := handleSession_ok_prefix sid frames [ReadResult.errOther msg] s
  refine ⟨?_, ?_, ?_, ?_⟩
  · rw [h1]; rfl
  · rw [h2]; rfl
  · intro rest
    have hs : handleSession s sid
        (frames.map ReadResult.ok ++ [ReadResult.errOther msg])
        = (frames.foldl (fun s f => (handleFrame s sid f).1) s, true,
            some 0xCC) := by
      rw [h2]; rfl
    simp only [acceptStreamLoop, hs, acceptLoop_closed]
  · intro rest
    have hs : handleSession s sid
        (frames.map ReadResult.ok ++ [ReadResult.errClosed])
        = (frames.foldl (fun s f => (handleFrame s sid f).1) s, false,
            none) := by
      rw [h1]; rfl
    simp only [acceptStreamLoop, hs]

/-- Claim C1 (failing input): a buffer carrying the Handshake or Data frame
tag but a truncated body makes `ParseFrame` crash the calling task (the Go
code panics inside `readHandshakeFrame` / `readDataFrame`) instead of
returning a `MalformedFrame` error. -/
theorem parseFrame_truncated_body_crashes :
    ParseFrame [0x80 ||| TagOfHandshakeFrame] = .crash ∧
    ParseFrame [0x80 ||| TagOfDataFrame] = .crash := by decide

/-- Claim C9: when the first byte of the buffer, with the structural marker
bit dropped, selects no recognized frame kind, `ParseFrame` returns the
unknown-frame-type error of the default branch — no recognized-kind branch
runs, and the caller is not crashed. -/
theorem parseFrame_unknown_kind_err (b : Nat) (rest : Bytes) (_hlt : b < 256)
    (hm : b % 128 ∉ [TagOfHandshakeFrame, TagOfDataFrame, TagOfPingFrame,
      TagOfPongFrame, TagOfAcceptedFrame, TagOfRejectedFrame]) :
    ParseFrame (b :: rest) = .err "unknown frame type" := by
  simp only [TagOfHandshakeFrame, TagOfDataFrame, TagOfPingFrame,
    TagOfPongFrame, TagOfAcceptedFrame, TagOfRejectedFrame, List.mem_cons,
    List.not_mem_nil, or_false, not_or] at hm
  obtain ⟨h1, h2, h3, h4, h5, h6⟩ := hm
  have e1 : (0x80 ||| TagOfHandshakeFrame : Nat) = 189 := by decide
  have e2 : (0x80 ||| TagOfDataFrame : Nat) = 191 := by decide
  have e3 : (0x80 ||| TagOfPingFrame : Nat) = 188 := by decide
  have e4 : (0x80 ||| TagOfPongFrame : Nat) = 187 := by decide
  have e5 : (0x80 ||| TagOfAcceptedFrame : Nat) = 186 := by decide
  have e6 : (0x80 ||| TagOfRejectedFrame : Nat) = 185 := by decide
  unfold ParseFrame
  dsimp only
  rw [if_neg (by rw [e1]; omega), if_neg (by rw [e2]; omega),
    if_neg (by rw [e3]; omega), if_neg (by rw [e4]; omega),
    if_neg (by rw [e5]; omega), if_neg (by rw [e6]; omega)]

/-- Witness for C9 at the concrete first byte `0x80` (masked kind `0`). -/
theorem parseFrame_unknown_kind_err_witness :
    ParseFrame [0x80] = .err "unknown frame type" :=
  parseFrame_unknown_kind_err 0x80 [] (by decide) (by decide)

/-- Claim C10: `handleDataFrame` increments the Data-frame counter by exactly
one on every received Data frame, whatever the routing outcome — forwarded
or dropped frames alike are counted. -/
theorem handleDataFrame_counts_every_frame (s : Server) (f : DataFrame) :
    (handleDataFrame s f).1.counterOfDataFrame = s.counterOfDataFrame + 1 := by
  unfold handleDataFrame
  dsimp only
  split
  · split <;> rfl
  · split
    · rfl
    · split <;> rfl

/-- Claim C5: a Handshake frame with client type StreamFunction registers
`(name, stream)` so that lookup by the name returns the handle; a second
StreamFunction Handshake with the same name overwrites the handle
(last-write-wins); Source and UpstreamZipper Handshakes leave the server
state, in particular the registry, unchanged. -/
theorem handshake_registers_streamFunction (s : Server) (t1 t2 : Nat)
    (n : Bytes) :
    (handleHandShakeFrame s t1 ⟨n, ConnTypeStreamFunction⟩).funcs n = some t1
    ∧ (handleHandShakeFrame (handleHandShakeFrame s t1
        ⟨n, ConnTypeStreamFunction⟩) t2 ⟨n, ConnTypeStreamFunction⟩).funcs n
        = some t2
    ∧ handleHandShakeFrame s t1 ⟨n, ConnTypeSource⟩ = s
    ∧ handleHandShakeFrame s t1 ⟨n, ConnTypeUpstreamZipper⟩ = s := by
  refine ⟨?_, ?_, ?_, ?_⟩ <;>
    simp [handleHandShakeFrame, ConnTypeSource, ConnTypeStreamFunction,
      ConnTypeUpstreamZipper]

/-- Folding the issuer scan over entries none of which carries the issuer
token leaves the accumulator unchanged. -/
theorem nextBucket_foldl_no_match (tok : Bytes) (l : List (Int × Bytes))
    (j : Int) (h : ∀ e ∈ l, e.2 ≠ tok) :
    l.foldl (fun j e => if e.2 = tok then e.1 + 1 else j) j = j := by
  induction l generalizing j with
  | nil => rfl
  | cons e rest ih =>
    have he : e.2 ≠ tok := h e (List.mem_cons_self e rest)
    simp only [List.foldl_cons, if_neg he]
    exact ih j fun x hx => h x (List.mem_cons_of_mem e hx)

/-- The issuer scan of `handleDataFrame` returns `i + 1` when the entry
`(i, tok)` is the last entry in iteration order whose token is `tok`. -/
theorem nextBucketIndex_last_match (l1 l2 : List (Int × Bytes)) (i : Int)
    (tok : Bytes) (h : ∀ e ∈ l2, e.2 ≠ tok) :
    nextBucketIndex (l1 ++ (i, tok) :: l2) tok = i + 1 := by
  unfold nextBucketIndex
  rw [List.foldl_append]
  simp only [List.foldl_cons, if_pos rfl]
  exact nextBucket_foldl_no_match tok l2 (i + 1) h

/-- Claim C2: when the issuer occupies stage `i` (and no later entry of the
bucket map carries the same token), the Routing Engine targets stage `i + 1`:
the frame is written to the stream registered under stage `i + 1`'s token
when that token is assigned and registered, and dropped — no write — when
the token is unassigned (empty) or its registry lookup is absent. -/
theorem routing_targets_next_stage (s : Server) (f : DataFrame) (i : Int)
    (l1 l2 : List (Int × Bytes)) (t : Nat)
    (hb : s.funcBuckets = l1 ++ (i, f.issuer) :: l2)
    (hl2 : ∀ e ∈ l2, e.2 ≠ f.issuer)
    (hi : 0 ≤ i) :
    (bucketGet s.funcBuckets (i + 1) ≠ [] →
        s.funcs (bucketGet s.funcBuckets (i + 1)) = some t →
        (handleDataFrame s f).2 = some (t, encodeDataFrame f))
    ∧ (bucketGet s.funcBuckets (i + 1) = [] →
        (handleDataFrame s f).2 = none)
    ∧ (s.funcs (bucketGet s.funcBuckets (i + 1)) = none →
        (handleDataFrame s f).2 = none) := by
  have hj : nextBucketIndex s.funcBuckets f.issuer = i + 1 := by
    rw [hb]; exact nextBucketIndex_last_match l1 l2 i f.issuer hl2
  have hne : ¬(i + 1 = 0) := by omega
  unfold handleDataFrame
  dsimp only
  rw [hj, if_neg hne]
  refine ⟨?_, ?_, ?_⟩
  · intro hne2 hsome
    rw [if_neg (by simpa [List.length_eq_zero] using hne2), hsome]
  · intro hnil
    rw [if_pos (by simpa [List.length_eq_zero] using hnil)]
  · intro hnone
    by_cases hnil : bucketGet s.funcBuckets (i + 1) = []
    · rw [if_pos (by simpa [List.length_eq_zero] using hnil)]
    · rw [if_neg (by simpa [List.length_eq_zero] using hnil), hnone]

/-- Witness for C2 on the two-stage workflow `[(0, "A"), (1, "B")]` with "B"
registered at stream 7: a Data frame issued by "A" is forwarded to "B". -/
theorem routing_targets_next_stage_witness :
    (handleDataFrame
        ⟨fun n => if n = [66] then some 7 else none, 0, [(0, [65]), (1, [66])]⟩
        ⟨[1], [65], 9, [2, 3]⟩).2
      = some (7, encodeDataFrame ⟨[1], [65], 9, [2, 3]⟩) :=
  (routing_targets_next_stage
      ⟨fun n => if n = [66] then some 7 else none, 0, [(0, [65]), (1, [66])]⟩
      ⟨[1], [65], 9, [2, 3]⟩ 0 [] [(1, [66])] 7 rfl (by decide) (by decide)).1
    (by decide) (by decide)

/-- Claim C6: a Data frame whose issuer matches no bucket token targets stage
index 0: it is written to the stream registered under stage 0's token, and
dropped when that token has no registry entry. -/
theorem routing_unmatched_issuer_stage_zero (s : Server) (f : DataFrame)
    (t : Nat) (h : ∀ e ∈ s.funcBuckets, e.2 ≠ f.issuer) :
    (s.funcs (bucketGet s.funcBuckets 0) = some t →
        (handleDataFrame s f).2 = some (t, encodeDataFrame f))
    ∧ (s.funcs (bucketGet s.funcBuckets 0) = none →
        (handleDataFrame s f).2 = none) := by
  have hj : nextBucketIndex s.funcBuckets f.issuer = 0 :=
    nextBucket_foldl_no_match f.issuer s.funcBuckets 0 h
  unfold handleDataFrame
  dsimp only
  rw [hj, if_pos rfl]
  constructor
  · intro hsome; rw [hsome]
  · intro hnone; rw [hnone]

/-- Witness for C6: issuer "SRC" is not in the workflow `[(0, "A")]`; the
frame goes to "A"'s stream 3. -/
theorem routing_unmatched_issuer_stage_zero_witness :
    (handleDataFrame
        ⟨fun n => if n = [65] then some 3 else none, 0, [(0, [65])]⟩
        ⟨[1], [83, 82, 67], 9, [2]⟩).2
      = some (3, encodeDataFrame ⟨[1], [83, 82, 67], 9, [2]⟩) :=
  (routing_unmatched_issuer_stage_zero
      ⟨fun n => if n = [65] then some 3 else none, 0, [(0, [65])]⟩
      ⟨[1], [83, 82, 67], 9, [2]⟩ 3 (by decide)).1 (by decide)

/-- `readChunk` succeeds exactly on a length-prefixed field: the input is
recovered from the output. -/
theorem readChunk_inv (body xs r : Bytes) (h : readChunk body = some (xs, r)) :
    body = xs.length :: (xs ++ r) := by
  cases body with
  | nil => simp [readChunk] at h
  | cons n rest =>
    simp only [readChunk] at h
    split_ifs at h with hn
    · simp only [Option.some.injEq, Prod.mk.injEq] at h
      obtain ⟨hx, hr⟩ := h
      subst hx
      subst hr
      rw [List.take_append_drop]
      congr 1
      rw [List.length_take]
      omega

/-- Decoding is left-inverse to encoding on Data frames: a successful decode
of `buf` re-encodes to exactly `buf`. -/
theorem decodeDataFrame_inv (buf : Bytes) (f : DataFrame)
    (h : DecodeToDataFrame buf = some f) : encodeDataFrame f = buf := by
  cases buf with
  | nil => simp [DecodeToDataFrame] at h
  | cons b body =>
    simp only [DecodeToDataFrame] at h
    by_cases hb : b = 0x80 ||| TagOfDataFrame
    · rw [if_pos hb] at h
      cases hc1 : readChunk body with
      | none => rw [hc1] at h; simp at h
      | some p1 =>
        obtain ⟨tid, r1⟩ := p1
        rw [hc1] at h
        dsimp only at h
        cases hc2 : readChunk r1 with
        | none => rw [hc2] at h; simp at h
        | some p2 =>
          obtain ⟨iss, r2⟩ := p2
          rw [hc2] at h
          dsimp only at h
          cases r2 with
          | nil => simp at h
          | cons tag r3 =>
            dsimp only at h
            cases hc3 : readChunk r3 with
            | none => rw [hc3] at h; simp at h
            | some p3 =>
              obtain ⟨car, r4⟩ := p3
              rw [hc3] at h
              dsimp only at h
              cases r4 with
              | nil =>
                simp only [Option.some.injEq] at h
                subst h
                have e1 := readChunk_inv body tid r1 hc1
                have e2 := readChunk_inv r1 iss (tag :: r3) hc2
                have e3 := readChunk_inv r3 car [] hc3
                subst hb
                rw [e1, e2, e3]
                simp [encodeDataFrame]
              | cons x r5 => simp at h
    · rw [if_neg hb] at h
      simp at h

/-- Every write performed by `handleDataFrame` carries the re-encoding of the
received frame, whose fields it never touches. -/
theorem handleDataFrame_writes_encoded (s : Server) (f : DataFrame) (t : Nat)
    (out : Bytes) (hw : (handleDataFrame s f).2 = some (t, out)) :
    out = encodeDataFrame f := by
  unfold handleDataFrame at hw
  dsimp only at hw
  split at hw
  · split at hw
    · simp at hw
    · simp only [Option.some.injEq, Prod.mk.injEq] at hw
      exact hw.2.symm
  · split at hw
    · simp at hw
    · split at hw
      · simp at hw
      · simp only [Option.some.injEq, Prod.mk.injEq] at hw
        exact hw.2.symm

/-- Claim C4: when the Routing Engine forwards a Data frame, the bytes
written to the next stage's stream are byte-identical to the frame's
original encoded wire bytes: the core mutates neither the payload nor any
other field between decode and forward. -/
theorem forwarded_bytes_are_wire_bytes (buf : Bytes) (f : DataFrame)
    (s : Server) (t : Nat) (out : Bytes)
    (hdec : DecodeToDataFrame buf = some f)
    (hw : (handleDataFrame s f).2 = some (t, out)) :
    out = buf := by
  rw [handleDataFrame_writes_encoded s f t out hw]
  exact decodeDataFrame_inv buf f hdec

/-- Witness for C4: the wire bytes `[191, 1, 1, 1, 65, 9, 1, 2]` decode to a
Data frame issued by "A"; forwarding it to the function registered under the
stage-0 token "F" writes exactly those bytes back out. -/
theorem forwarded_bytes_are_wire_bytes_witness :
    encodeDataFrame ⟨[1], [65], 9, [2]⟩ = [191, 1, 1, 1, 65, 9, 1, 2] :=
  forwarded_bytes_are_wire_bytes [191, 1, 1, 1, 65, 9, 1, 2]
    ⟨[1], [65], 9, [2]⟩
    ⟨fun n => if n = [70] then some 5 else none, 0, [(0, [70])]⟩ 5
    (encodeDataFrame ⟨[1], [65], 9, [2]⟩) (by decide) (by decide)

/-- Reading a key back from the bucket map after a Go-map assignment: the
assigned key now holds the new token, every other key is untouched. -/
theorem bucketGet_setBucket (bs : List (Int × Bytes)) (i q : Int) (t : Bytes) :
    bucketGet (setBucket bs i t) q = if q = i then t else bucketGet bs q := by
  induction bs with
  | nil =>
    rcases eq_or_ne q i with rfl | h
    · simp [setBucket, bucketGet]
    · simp [setBucket, bucketGet, h, Ne.symm h]
  | cons e rest ih =>
    by_cases he : e.1 = i <;> by_cases hq : q = i <;>
      by_cases heq : e.1 = q <;>
      simp_all [setBucket, bucketGet]

/-- Folding workflow assignments starting from any accumulator computes the
last matching token, falling back to the accumulator. -/
theorem lastTokenOf_foldl_acc (q : Int) (l : List Workflow) :
    ∀ a, l.foldl (fun acc w => if w.Seq = q then some w.Token else acc) a
      = match lastTokenOf l q with
        | some t => some t
        | none => a := by
  induction l with
  | nil => intro a; rfl
  | cons w rest ih =>
    intro a
    have hl : lastTokenOf (w :: rest) q
        = rest.foldl (fun acc w => if w.Seq = q then some w.Token else acc)
            (if w.Seq = q then some w.Token else none) := rfl
    simp only [List.foldl_cons, hl]
    by_cases hw : w.Seq = q
    · rw [if_pos hw, if_pos hw, ih (some w.Token)]
      cases hres : lastTokenOf rest q <;> rfl
    · rw [if_neg hw, if_neg hw, ih a, ih none]
      cases hres : lastTokenOf rest q <;> rfl

/-- The bucket map built by folding workflow assignments holds, at each
sequence, the last token the list assigns there — or the prior binding. -/
theorem bucketGet_foldl_setBucket (wfs : List Workflow) (q : Int) :
    ∀ bs, bucketGet (wfs.foldl (fun bs wf => setBucket bs wf.Seq wf.Token) bs) q
      = match lastTokenOf wfs q with
        | some t => t
        | none => bucketGet bs q := by
  induction wfs with
  | nil => intro bs; rfl
  | cons w rest ih =>
    intro bs
    simp only [List.foldl_cons]
    rw [ih (setBucket bs w.Seq w.Token)]
    have hl : lastTokenOf (w :: rest) q
        = rest.foldl (fun acc w => if w.Seq = q then some w.Token else acc)
            (if w.Seq = q then some w.Token else none) := rfl
    rw [hl, lastTokenOf_foldl_acc q rest (if w.Seq = q then some w.Token else none)]
    cases hres : lastTokenOf rest q with
    | some t => rfl
    | none =>
      rw [bucketGet_setBucket]
      by_cases hw : w.Seq = q
      · simp [hw]
      · simp [hw, Ne.symm hw]

/-- With pairwise-distinct sequence numbers, the last-match token of a
workflow list is invariant under permutation of the list. -/
theorem lastTokenOf_perm (l1 l2 : List Workflow) (hperm : l1.Perm l2)
    (hnd : (l1.map Workflow.Seq).Nodup) (q : Int) :
    lastTokenOf l1 q = lastTokenOf l2 q := by
  unfold lastTokenOf
  refine hperm.foldl_eq' ?_ none
  intro x hx y hy z
  dsimp only
  by_cases hxq : x.Seq = q <;> by_cases hyq : y.Seq = q <;> simp [hxq, hyq]
  exact congrArg Workflow.Token
    (List.inj_on_of_nodup_map hnd hy hx (hyq.trans hxq.symm))

/-- Claim C7: `AddWorkflow` builds the stage table keyed by sequence number:
it never fails, a later pair with a sequence already present overwrites the
earlier binding, and for pairwise-distinct sequences the resulting
stage-to-token assignment is independent of insertion order. -/
theorem addWorkflow_builds_by_seq (s : Server) (l1 l2 : List Workflow)
    (hperm : l1.Perm l2) (hnd : (l1.map Workflow.Seq).Nodup) :
    (∀ l, (AddWorkflow s l).2 = none)
    ∧ (∀ (l : List Workflow) (w : Workflow),
        bucketGet ((AddWorkflow s (l ++ [w])).1.funcBuckets) w.Seq = w.Token)
    ∧ (∀ q, bucketGet ((AddWorkflow s l1).1.funcBuckets) q
        = bucketGet ((AddWorkflow s l2).1.funcBuckets) q) := by
  refine ⟨fun l => rfl, ?_, ?_⟩
  · intro l w
    show bucketGet
        ((l ++ [w]).foldl (fun bs wf => setBucket bs wf.Seq wf.Token)
          s.funcBuckets) w.Seq = w.Token
    rw [List.foldl_append]
    simp only [List.foldl_cons, List.foldl_nil]
    rw [bucketGet_setBucket, if_pos rfl]
  · intro q
    show bucketGet
        (l1.foldl (fun bs wf => setBucket bs wf.Seq wf.Token) s.funcBuckets) q
      = bucketGet
        (l2.foldl (fun bs wf => setBucket bs wf.Seq wf.Token) s.funcBuckets) q
    rw [bucketGet_foldl_setBucket, bucketGet_foldl_setBucket,
      lastTokenOf_perm l1 l2 hperm hnd q]

/-- Witness for C7: the workflows `[(0, "A"), (1, "B")]` and
`[(1, "B"), (0, "A")]` build the same stage-0 assignment. -/
theorem addWorkflow_builds_by_seq_witness :
    bucketGet ((AddWorkflow NewServer [⟨0, [65]⟩, ⟨1, [66]⟩]).1.funcBuckets) 0
      = bucketGet
          ((AddWorkflow NewServer [⟨1, [66]⟩, ⟨0, [65]⟩]).1.funcBuckets) 0 :=
  (addWorkflow_builds_by_seq NewServer [⟨0, [65]⟩, ⟨1, [66]⟩]
      [⟨1, [66]⟩, ⟨0, [65]⟩] (by decide) (by decide)).2.2 0

/-- Claim C3 (failing interleaving): two tasks each performing the non-atomic
increment `counterOfDataFrame++` can interleave as load, load, store, store;
both complete, yet the counter ends at 1 after 2 increments, while the
sequential interleaving ends at 2 — an increment is lost, so the counter does
not equal N under every interleaving. -/
theorem counter_increment_lost_update :
    (runSched [.start, .start] 0 [0, 1, 0, 1] = ([.done, .done], 1)
      ∧ runSched [.start, .start] 0 [0, 0, 1, 1] = ([.done, .done], 2))
    ∧ (1 : Int) ≠ 2 := by decide

end Yomo
